import Mathlib

/-!
Verification of the infrastructure lifecycle orchestrator of this repository
(provisioning scripts `first_configuration.py` / `first_configuration_win.py`,
teardown scripts `destroy_infrastructure.py` / `destroy_infrastructure_win.py`,
and the reader/writer lambda handlers).

Python strings are embedded as `List Char` (named `Str`); Python string
operations used by the scripts (`strip`, `lower`, `startswith`, `in`,
`split(sep, 1)[-1]`, `split(sep)[-1]`, `int(...)`) are defined below by
structural recursion so that every definition is executable and decidable.
File contents are embedded as lists of lines (the scripts write and read
newline-joined text; none of the written fields contains a newline).
-/

/-- Python strings, embedded as lists of characters. -/
abbrev Str : Type := List Char

/-- The whitespace characters recognised by Python `str.strip()`. -/
def pyIsSpace (c : Char) : Bool :=
  c = ' ' || c = '\t' || c = '\n' || c = '\r' || c = '\x0b' || c = '\x0c'

/-- Python `s.strip(chars)` generalised over a character predicate:
drop matching characters from both ends. -/
def pyStripP (p : Char → Bool) (s : Str) : Str :=
  ((s.dropWhile p).reverse.dropWhile p).reverse

/-- Python `s.strip()` (no argument): strip whitespace from both ends. -/
def pyStrip (s : Str) : Str := pyStripP pyIsSpace s

/-- Python `s.lower()` (the scripts only lowercase ASCII config text). -/
def pyLower (s : Str) : Str := s.map Char.toLower

/-- The suffix of `s` that follows the first occurrence of `sep`, if `sep`
occurs in `s`.  `(afterFirstSub sep s).isSome` is Python `sep in s`. -/
def afterFirstSub (sep : Str) : Str → Option Str
  | [] => if sep.isPrefixOf ([] : Str) then some [] else none
  | c :: t =>
    if sep.isPrefixOf (c :: t) then some (List.drop sep.length (c :: t))
    else afterFirstSub sep t

/-- Python `sep in s`. -/
def containsSub (sep s : Str) : Bool := (afterFirstSub sep s).isSome

/-- Python `s.split(sep, 1)[-1]`: everything after the first occurrence of
`sep`, or `s` itself when `sep` does not occur. -/
def split1Last (sep s : Str) : Str := (afterFirstSub sep s).getD s

/-- Helper for `splitLastPart`: repeatedly jump past occurrences of `sep`,
bounded by fuel.  A successful `afterFirstSub` with a nonempty `sep` strictly
shrinks the string, so fuel `s.length` is always enough. -/
def splitLastAux (sep : Str) : Nat → Str → Str
  | 0, s => s
  | fuel + 1, s =>
    match afterFirstSub sep s with
    | none => s
    | some r => splitLastAux sep fuel r

/-- Python `s.split(sep)[-1]` for a nonempty separator: the suffix after the
last occurrence of `sep` (or `s` itself when `sep` does not occur). -/
def splitLastPart (sep s : Str) : Str := splitLastAux sep s.length s

/-!
## Metadata channel

`write_backend_hcl_with_meta` (first_configuration.py lines 44-57 and
first_configuration_win.py lines 148-161) writes `backend.hcl` as a metadata
comment line followed by four HCL assignment lines.
`read_backend_meta_test_via_ui` (destroy_infrastructure.py lines 100-116 and
destroy_infrastructure_win.py lines 186-205) scans the lines for
`# meta.test_via_ui=true/false`; a missing file or no matching line is `none`.
-/

/-- The metadata key scanned for by the destroy scripts. -/
def metaKey : Str := "meta.test_via_ui=".toList

/-- The literal `true` accepted by the metadata reader. -/
def trueStr : Str := "true".toList

/-- The literal `false` accepted by the metadata reader. -/
def falseStr : Str := "false".toList

/-- The HCL comment marker. -/
def hashStr : Str := "#".toList

/-- `write_backend_hcl_with_meta`: the lines written to `backend.hcl` — the
metadata comment first, then bucket / key / region / encrypt. -/
def write_backend_hcl_with_meta (bucket key region : Str) (test_via_ui : Bool) :
    List Str :=
  [ "# meta.test_via_ui=".toList ++ (if test_via_ui then trueStr else falseStr),
    "bucket  = \"".toList ++ bucket ++ "\"".toList,
    "key     = \"".toList ++ key ++ "\"".toList,
    "region  = \"".toList ++ region ++ "\"".toList,
    "encrypt = true".toList ]

/-- The line scan of `read_backend_meta_test_via_ui`: for each line take
`line.strip().lower()`; if it starts with `#` and contains the metadata key,
parse the part after the key; accept only the literals `true`/`false`,
otherwise keep scanning.  No matching line yields `none`. -/
def read_backend_meta_lines : List Str → Option Bool
  | [] => none
  | line :: rest =>
    let s := pyLower (pyStrip line)
    if hashStr.isPrefixOf s && containsSub metaKey s then
      let val := pyStrip (split1Last metaKey s)
      if val = trueStr then some true
      else if val = falseStr then some false
      else read_backend_meta_lines rest
    else read_backend_meta_lines rest

/-- `read_backend_meta_test_via_ui`: a missing file (`none`) reads as
`none` ("unknown"); otherwise scan the file's lines. -/
def read_backend_meta_test_via_ui (file : Option (List Str)) : Option Bool :=
  file.bind read_backend_meta_lines

/-- Claim C2: for every boolean `b` (and any bucket, key and region values),
writing the backend descriptor file with UI-release flag `b` and then reading
the flag back from that file returns exactly `b`. -/
theorem c2_meta_channel_roundtrip (b : Bool) (bucket key region : Str) :
    read_backend_meta_test_via_ui
      (some (write_backend_hcl_with_meta bucket key region b)) = some b := by
  cases b <;> rfl

/-!
## Python truthiness

The scripts branch on the truthiness of strings (`if not bucket`,
`if k and vid`, `if key_markers["KeyMarker"]`) and of optional strings
(`tf_output_soft` results).  An empty string and `None` are falsy.
-/

/-- Truthiness of a Python string: nonempty. -/
def strTruthy (s : Str) : Bool := !s.isEmpty

/-- Truthiness of an optional Python string: present and nonempty. -/
def optTruthy : Option Str → Bool
  | none => false
  | some s => strTruthy s

/-!
## Bucket-name normalization (destroy scripts)

`parse_bucket_name` (destroy_infrastructure.py lines 88-92 and
destroy_infrastructure_win.py lines 175-179):
strip the value, and if it starts with `arn:aws:s3:::` take
`v.split("arn:aws:s3:::")[-1].strip("/")`.
-/

/-- The ARN prefix recognised by `parse_bucket_name`. -/
def arnPrefixStr : Str := "arn:aws:s3:::".toList

/-- `parse_bucket_name`. -/
def parse_bucket_name (value : Str) : Str :=
  let v := pyStrip value
  if arnPrefixStr.isPrefixOf v then
    pyStripP (fun c => c = '/') (splitLastPart arnPrefixStr v)
  else v

/-!
## Versioned bucket drain (`s3_empty_bucket`)

destroy_infrastructure.py lines 124-199 and
destroy_infrastructure_win.py lines 212-285 (identical logic).
The cloud CLI is the environment: the head-bucket exit status, the
`aws s3 rm` exit status and the scripted `list-object-versions` responses
are parameters.  The function's observable behaviour is the trace of CLI
calls it issues plus its warnings.
-/

/-- One entry of the `Versions` or `DeleteMarkers` array of a
`list-object-versions` response; either field may be absent. -/
structure RawEntry where
  Key : Option Str
  VersionId : Option Str
deriving DecidableEq, Repr

/-- A (key, version) pair as placed into a delete payload. -/
structure ObjRef where
  Key : Str
  VersionId : Str
deriving DecidableEq, Repr

/-- The `--delete` payload of a `delete-objects` call. -/
structure DeletePayload where
  Objects : List ObjRef
  Quiet : Bool
deriving DecidableEq, Repr

/-- One `list-object-versions` response. -/
structure ListResponse where
  Versions : List RawEntry
  DeleteMarkers : List RawEntry
  IsTruncated : Bool
  NextKeyMarker : Option Str
  NextVersionIdMarker : Option Str
deriving Repr

/-- A cloud-CLI call issued by `s3_empty_bucket`. -/
inductive AwsCall where
  | headBucket (bucket : Str)
  | s3rm (bucket : Str)
  | listVersions (bucket : Str) (keyMarker versionIdMarker : Option Str)
  | deleteObjects (bucket : Str) (payload : DeletePayload)
deriving DecidableEq, Repr

/-- The per-entry collection loops (`for v in versions` / `for m in markers`):
keep an entry only if both `Key` and `VersionId` are present and truthy
(`if k and vid`). -/
def collectRefs : List RawEntry → List ObjRef
  | [] => []
  | e :: t =>
    match e.Key, e.VersionId with
    | some k, some vid =>
      if strTruthy k && strTruthy vid then ⟨k, vid⟩ :: collectRefs t
      else collectRefs t
    | _, _ => collectRefs t

/-- The `to_delete` list of one listing page: version entries first, then
delete-marker entries. -/
def collectToDelete (r : ListResponse) : List ObjRef :=
  collectRefs r.Versions ++ collectRefs r.DeleteMarkers

/-- Fuel-bounded chunking; every recursive step strictly shrinks the list, so
fuel `l.length` is always enough (the 0-fuel fallback is never reached from
`chunks1000`).  Structural recursion on the fuel keeps the function
kernel-evaluable. -/
def chunksBy1000 : Nat → List ObjRef → List (List ObjRef)
  | _, [] => []
  | 0, l => [l]
  | fuel + 1, l => l.take 1000 :: chunksBy1000 fuel (l.drop 1000)

/-- The chunking of `for i in range(0, len(to_delete), 1000)`:
successive slices of at most 1000 elements. -/
def chunks1000 (l : List ObjRef) : List (List ObjRef) :=
  chunksBy1000 l.length l

/-- The batch-delete calls issued for one listing page: one `delete-objects`
call per chunk, each with `Quiet=True`. -/
def pageDeleteCalls (bucket : Str) (r : ListResponse) : List AwsCall :=
  (chunks1000 (collectToDelete r)).map
    (fun c => AwsCall.deleteObjects bucket ⟨c, true⟩)

/-- The command-line marker arguments: `--key-marker` / `--version-id-marker`
are passed only when the stored marker is truthy. -/
def markerArg : Option Str → Option Str
  | none => none
  | some s => if s.isEmpty then none else some s

/-- Result of the versioned `while True` pass: the calls issued, whether the
missing-markers warning fired, and whether the loop exited (`finished = false`
only when the fuel bound was hit, which models a diverging run). -/
structure LoopOut where
  calls : List AwsCall
  warnedPagination : Bool
  finished : Bool
deriving DecidableEq, Repr

/-- The versioned pass of `s3_empty_bucket`: list a page (the `k`-th listing
call returns `pages k`), issue its batch deletes, stop when not truncated,
warn and stop when truncated with both next markers falsy, else continue with
the next markers. -/
def drainLoop (pages : Nat → ListResponse) (bucket : Str) :
    Nat → Nat → Option Str → Option Str → LoopOut
  | 0, _, _, _ => ⟨[], false, false⟩
  | fuel + 1, k, km, vm =>
    let r := pages k
    let pageCalls :=
      AwsCall.listVersions bucket (markerArg km) (markerArg vm)
        :: pageDeleteCalls bucket r
    if !r.IsTruncated then ⟨pageCalls, false, true⟩
    else if !optTruthy r.NextKeyMarker && !optTruthy r.NextVersionIdMarker then
      ⟨pageCalls, true, true⟩
    else
      let rest :=
        drainLoop pages bucket fuel (k + 1) r.NextKeyMarker r.NextVersionIdMarker
      ⟨pageCalls ++ rest.calls, rest.warnedPagination, rest.finished⟩

/-- The cloud environment seen by one `s3_empty_bucket` run. -/
structure S3Env where
  bucketOk : Bool
  rmOk : Bool
  pages : Nat → ListResponse

/-- Observable outcome of `s3_empty_bucket`. -/
structure DrainOut where
  calls : List AwsCall
  warnedMissing : Bool
  warnedRm : Bool
  warnedPagination : Bool
  finished : Bool
deriving DecidableEq, Repr

/-- `s3_empty_bucket`: return immediately on a falsy bucket; normalize the
name; head-probe it and warn-and-return when the probe fails; otherwise do the
best-effort `s3 rm` (warning on failure) and run the versioned pass. -/
def s3_empty_bucket (env : S3Env) (fuel : Nat) (bucket : Str) : DrainOut :=
  if bucket.isEmpty then ⟨[], false, false, false, true⟩
  else
    let b := parse_bucket_name bucket
    if !env.bucketOk then ⟨[AwsCall.headBucket b], true, false, false, true⟩
    else
      let out := drainLoop env.pages b fuel 0 none none
      ⟨AwsCall.headBucket b :: AwsCall.s3rm b :: out.calls,
        false, !env.rmOk, out.warnedPagination, out.finished⟩

/-!
## Claim C1: per-page batch deletion
-/

/-- An entry carries both a truthy `Key` and a truthy `VersionId`
(the condition `if k and vid` of the collection loop). -/
def entryValid (e : RawEntry) : Bool :=
  match e.Key, e.VersionId with
  | some k, some vid => strTruthy k && strTruthy vid
  | _, _ => false

theorem chunksBy1000_flatten (fuel : Nat) :
    ∀ l : List ObjRef, l.length ≤ fuel → (chunksBy1000 fuel l).flatten = l := by
  induction fuel with
  | zero =>
    intro l h
    have : l = [] := List.eq_nil_of_length_eq_zero (Nat.le_zero.mp h)
    subst this
    rfl
  | succ fuel ih =>
    intro l h
    cases l with
    | nil => rfl
    | cons x t =>
      have hd : ((x :: t).drop 1000).length ≤ fuel := by
        rw [List.length_drop]
        simp only [List.length_cons] at h ⊢
        omega
      simp only [chunksBy1000, List.flatten_cons, ih _ hd, List.take_append_drop]

theorem chunksBy1000_length (fuel : Nat) :
    ∀ l : List ObjRef, l.length ≤ fuel →
      (chunksBy1000 fuel l).length = (l.length + 999) / 1000 := by
  induction fuel with
  | zero =>
    intro l h
    have : l = [] := List.eq_nil_of_length_eq_zero (Nat.le_zero.mp h)
    subst this
    rfl
  | succ fuel ih =>
    intro l h
    cases l with
    | nil => rfl
    | cons x t =>
      have hd : ((x :: t).drop 1000).length ≤ fuel := by
        rw [List.length_drop]
        simp only [List.length_cons] at h ⊢
        omega
      simp only [chunksBy1000, List.length_cons, ih _ hd, List.length_drop]
      omega

theorem chunksBy1000_chunk_le (fuel : Nat) :
    ∀ l : List ObjRef, l.length ≤ fuel → ∀ c ∈ chunksBy1000 fuel l, c.length ≤ 1000 := by
  induction fuel with
  | zero =>
    intro l h c hc
    have : l = [] := List.eq_nil_of_length_eq_zero (Nat.le_zero.mp h)
    subst this
    simp [chunksBy1000] at hc
  | succ fuel ih =>
    intro l h c hc
    cases l with
    | nil => simp [chunksBy1000] at hc
    | cons x t =>
      have hd : ((x :: t).drop 1000).length ≤ fuel := by
        rw [List.length_drop]
        simp only [List.length_cons] at h ⊢
        omega
      simp only [chunksBy1000, List.mem_cons] at hc
      rcases hc with hc | hc
      · subst hc
        exact List.length_take_le 1000 (x :: t)
      · exact ih _ hd c hc

theorem collectRefs_length_of_valid :
    ∀ es : List RawEntry, (∀ e ∈ es, entryValid e = true) →
      (collectRefs es).length = es.length := by
  intro es
  induction es with
  | nil => intro _; rfl
  | cons e t ih =>
    intro h
    have he := h e (List.mem_cons_self e t)
    have ht := fun x hx => h x (List.mem_cons_of_mem e hx)
    cases hk : e.Key with
    | none => simp [entryValid, hk] at he
    | some k =>
      cases hv : e.VersionId with
      | none => simp [entryValid, hk, hv] at he
      | some vid =>
        simp only [entryValid, hk, hv] at he
        simp [collectRefs, hk, hv, he, ih ht]

/-- Claim C1: for one listing page whose `N` version entries and `M`
delete-marker entries each carry a (truthy) `Key` and `VersionId`, the drain's
`to_delete` list holds exactly the `N + M` references from both lists, the
batch-delete calls for the page number `⌈(N+M)/1000⌉ = (N+M+999)/1000`, their
chunks have at most 1000 pairs each and concatenate (disjointly, in order)
back to the whole `to_delete` list, and every payload sets `Quiet = true`. -/
theorem c1_page_batch_deletes (bucket : Str) (r : ListResponse)
    (hv : ∀ e ∈ r.Versions, entryValid e = true)
    (hm : ∀ e ∈ r.DeleteMarkers, entryValid e = true) :
    (collectToDelete r).length = r.Versions.length + r.DeleteMarkers.length ∧
    (pageDeleteCalls bucket r).length
      = (r.Versions.length + r.DeleteMarkers.length + 999) / 1000 ∧
    (∀ c ∈ chunks1000 (collectToDelete r), c.length ≤ 1000) ∧
    (chunks1000 (collectToDelete r)).flatten = collectToDelete r ∧
    (∀ p : DeletePayload,
      AwsCall.deleteObjects bucket p ∈ pageDeleteCalls bucket r → p.Quiet = true) := by
  have hlen : (collectToDelete r).length
      = r.Versions.length + r.DeleteMarkers.length := by
    simp [collectToDelete, collectRefs_length_of_valid _ hv,
      collectRefs_length_of_valid _ hm]
  refine ⟨hlen, ?_, ?_, ?_, ?_⟩
  · rw [pageDeleteCalls, List.length_map, chunks1000,
      chunksBy1000_length _ _ le_rfl, hlen]
  · exact chunksBy1000_chunk_le _ _ le_rfl
  · exact chunksBy1000_flatten _ _ le_rfl
  · intro p hp
    simp only [pageDeleteCalls, List.mem_map] at hp
    rcases hp with ⟨c, _, hc⟩
    cases hc
    rfl

/-- A concrete listing page for the C1 witness: two version entries and one
delete marker, all with key and version id. -/
def exPageC1 : ListResponse where
  Versions :=
    [ ⟨some "a.txt".toList, some "v1".toList⟩,
      ⟨some "a.txt".toList, some "v2".toList⟩ ]
  DeleteMarkers := [ ⟨some "a.txt".toList, some "dm1".toList⟩ ]
  IsTruncated := false
  NextKeyMarker := none
  NextVersionIdMarker := none

theorem c1_page_batch_deletes_witness :
    (∀ e ∈ exPageC1.Versions, entryValid e = true) ∧
    (∀ e ∈ exPageC1.DeleteMarkers, entryValid e = true) ∧
    ((collectToDelete exPageC1).length
        = exPageC1.Versions.length + exPageC1.DeleteMarkers.length ∧
      (pageDeleteCalls "b".toList exPageC1).length
        = (exPageC1.Versions.length + exPageC1.DeleteMarkers.length + 999) / 1000 ∧
      (∀ c ∈ chunks1000 (collectToDelete exPageC1), c.length ≤ 1000) ∧
      (chunks1000 (collectToDelete exPageC1)).flatten = collectToDelete exPageC1 ∧
      (∀ p : DeletePayload,
        AwsCall.deleteObjects "b".toList p ∈ pageDeleteCalls "b".toList exPageC1 →
          p.Quiet = true)) :=
  ⟨by decide, by decide,
    c1_page_batch_deletes "b".toList exPageC1 (by decide) (by decide)⟩

/-!
## Claim C3: the versioned pass stops
-/

/-- A listing response on which the loop exits: either not truncated, or
truncated with both next markers falsy. -/
def pageStops (r : ListResponse) : Bool :=
  !r.IsTruncated || (!optTruthy r.NextKeyMarker && !optTruthy r.NextVersionIdMarker)

/-- A listing response that triggers the defensive missing-markers warning:
truncated, both next markers falsy. -/
def pageBad (r : ListResponse) : Bool :=
  r.IsTruncated && !optTruthy r.NextKeyMarker && !optTruthy r.NextVersionIdMarker

/-- Recognise a `list-object-versions` call in the trace. -/
def isListCall : AwsCall → Bool
  | .listVersions _ _ _ => true
  | _ => false

theorem pageDeleteCalls_no_listCall (bucket : Str) (r : ListResponse) :
    (pageDeleteCalls bucket r).countP (fun c => isListCall c) = 0 := by
  apply List.countP_eq_zero.mpr
  intro a ha
  simp only [pageDeleteCalls, List.mem_map] at ha
  rcases ha with ⟨c, _, hc⟩
  cases hc
  simp [isListCall]

theorem countP_listCall_page (bucket : Str) (r : ListResponse) (km vm : Option Str) :
    ((AwsCall.listVersions bucket km vm :: pageDeleteCalls bucket r)).countP
      (fun c => isListCall c) = 1 := by
  rw [List.countP_cons_of_pos _ _ (by simp [isListCall])]
  rw [pageDeleteCalls_no_listCall]

theorem drainLoop_exit_noTrunc (pages : Nat → ListResponse) (bucket : Str)
    (f k : Nat) (km vm : Option Str) (h : (pages k).IsTruncated = false) :
    drainLoop pages bucket (f + 1) k km vm
      = ⟨AwsCall.listVersions bucket (markerArg km) (markerArg vm)
          :: pageDeleteCalls bucket (pages k), false, true⟩ := by
  simp [drainLoop, h]

theorem drainLoop_exit_noMarkers (pages : Nat → ListResponse) (bucket : Str)
    (f k : Nat) (km vm : Option Str) (h1 : (pages k).IsTruncated = true)
    (h2 : (!optTruthy (pages k).NextKeyMarker
      && !optTruthy (pages k).NextVersionIdMarker) = true) :
    drainLoop pages bucket (f + 1) k km vm
      = ⟨AwsCall.listVersions bucket (markerArg km) (markerArg vm)
          :: pageDeleteCalls bucket (pages k), true, true⟩ := by
  simp [drainLoop, h1, h2]

theorem drainLoop_continue (pages : Nat → ListResponse) (bucket : Str)
    (f k : Nat) (km vm : Option Str) (h1 : (pages k).IsTruncated = true)
    (h2 : (!optTruthy (pages k).NextKeyMarker
      && !optTruthy (pages k).NextVersionIdMarker) = false) :
    drainLoop pages bucket (f + 1) k km vm
      = ⟨(AwsCall.listVersions bucket (markerArg km) (markerArg vm)
            :: pageDeleteCalls bucket (pages k))
          ++ (drainLoop pages bucket f (k + 1)
              (pages k).NextKeyMarker (pages k).NextVersionIdMarker).calls,
          (drainLoop pages bucket f (k + 1)
            (pages k).NextKeyMarker (pages k).NextVersionIdMarker).warnedPagination,
          (drainLoop pages bucket f (k + 1)
            (pages k).NextKeyMarker (pages k).NextVersionIdMarker).finished⟩ := by
  simp [drainLoop, h1, h2]

theorem drainLoop_stops_at_first (pages : Nat → ListResponse) (bucket : Str) :
    ∀ j fuel k km vm,
      (∀ m, m < j → pageStops (pages (k + m)) = false) →
      pageStops (pages (k + j)) = true → j < fuel →
      (drainLoop pages bucket fuel k km vm).finished = true ∧
      (drainLoop pages bucket fuel k km vm).calls.countP (fun c => isListCall c)
        = j + 1 ∧
      (drainLoop pages bucket fuel k km vm).warnedPagination
        = pageBad (pages (k + j)) := by
  intro j
  induction j with
  | zero =>
    intro fuel k km vm _ hstop hfuel
    cases fuel with
    | zero => omega
    | succ f =>
      simp only [Nat.add_zero] at hstop ⊢
      cases ht : (pages k).IsTruncated with
      | false =>
        rw [drainLoop_exit_noTrunc pages bucket f k km vm ht]
        exact ⟨rfl, countP_listCall_page bucket (pages k) _ _,
          by simp [pageBad, ht]⟩
      | true =>
        have hmk : (!optTruthy (pages k).NextKeyMarker
            && !optTruthy (pages k).NextVersionIdMarker) = true := by
          simp only [pageStops, ht, Bool.not_true, Bool.false_or] at hstop
          exact hstop
        rw [drainLoop_exit_noMarkers pages bucket f k km vm ht hmk]
        refine ⟨rfl, countP_listCall_page bucket (pages k) _ _, ?_⟩
        simp only [Bool.and_eq_true] at hmk
        simp [pageBad, ht, hmk.1, hmk.2]
  | succ j ih =>
    intro fuel k km vm hmin hstop hfuel
    cases fuel with
    | zero => omega
    | succ f =>
      have h0 : pageStops (pages k) = false := by
        have := hmin 0 (Nat.succ_pos j)
        simpa using this
      have ht : (pages k).IsTruncated = true := by
        cases hx : (pages k).IsTruncated
        · simp [pageStops, hx] at h0
        · rfl
      have hmk : (!optTruthy (pages k).NextKeyMarker
          && !optTruthy (pages k).NextVersionIdMarker) = false := by
        simp only [pageStops, ht, Bool.not_true, Bool.false_or] at h0
        exact h0
      have hmin2 : ∀ m, m < j → pageStops (pages (k + 1 + m)) = false := by
        intro m hm
        have := hmin (m + 1) (by omega)
        rwa [show k + (m + 1) = k + 1 + m by omega] at this
      have hstop2 : pageStops (pages (k + 1 + j)) = true := by
        rwa [show k + (j + 1) = k + 1 + j by omega] at hstop
      have hrec := ih f (k + 1) (pages k).NextKeyMarker (pages k).NextVersionIdMarker
        hmin2 hstop2 (by omega)
      rw [drainLoop_continue pages bucket f k km vm ht hmk]
      refine ⟨hrec.1, ?_, ?_⟩
      · rw [List.countP_append, countP_listCall_page bucket (pages k), hrec.2.1]
        omega
      · rw [hrec.2.2, show k + 1 + j = k + (j + 1) by omega]

/-- Claim C3: if some listing response stops the loop (not truncated, or
truncated with no cursor markers), the versioned pass terminates: with the
`i`-th response (counting from 0) the first stopping one and enough fuel, the
loop finishes, issues exactly `i + 1` listing calls (none after the stopping
response), and raises the pagination warning exactly when the stopping
response was truncated without markers. -/
theorem c3_versioned_pass_terminates (pages : Nat → ListResponse) (bucket : Str)
    (i fuel : Nat)
    (hmin : ∀ j, j < i → pageStops (pages j) = false)
    (hstop : pageStops (pages i) = true)
    (hfuel : i < fuel) :
    (drainLoop pages bucket fuel 0 none none).finished = true ∧
    (drainLoop pages bucket fuel 0 none none).calls.countP (fun c => isListCall c)
      = i + 1 ∧
    (drainLoop pages bucket fuel 0 none none).warnedPagination
      = pageBad (pages i) := by
  have h := drainLoop_stops_at_first pages bucket i fuel 0 none none
    (by simpa using hmin) (by simpa using hstop) hfuel
  simpa using h

/-- A truncated listing response carrying cursor markers (the loop continues
past it). -/
def exPageCont : ListResponse where
  Versions := []
  DeleteMarkers := []
  IsTruncated := true
  NextKeyMarker := some "k1".toList
  NextVersionIdMarker := some "v1".toList

/-- A truncated listing response with no cursor markers (the contract
violation the loop must warn about and stop on). -/
def exPageBad : ListResponse where
  Versions := []
  DeleteMarkers := []
  IsTruncated := true
  NextKeyMarker := none
  NextVersionIdMarker := none

/-- Scripted listing responses for the C3 witness: first a truncated page with
markers, then a truncated page without markers. -/
def exPagesC3 : Nat → ListResponse := fun n => if n = 0 then exPageCont else exPageBad

theorem c3_versioned_pass_terminates_witness :
    (∀ j, j < 1 → pageStops (exPagesC3 j) = false) ∧
    pageStops (exPagesC3 1) = true ∧ 1 < 3 ∧
    ((drainLoop exPagesC3 "b".toList 3 0 none none).finished = true ∧
      (drainLoop exPagesC3 "b".toList 3 0 none none).calls.countP
        (fun c => isListCall c) = 1 + 1 ∧
      (drainLoop exPagesC3 "b".toList 3 0 none none).warnedPagination
        = pageBad (exPagesC3 1)) :=
  ⟨by decide, by decide, by decide,
    c3_versioned_pass_terminates exPagesC3 "b".toList 1 3 (by decide) (by decide)
      (by decide)⟩

/-!
## Claim C4: drain of a nonexistent bucket
-/

/-- The calls the drain must not issue when the existence probe fails:
`s3 rm`, `list-object-versions` and `delete-objects`. -/
def isMutatingCall : AwsCall → Bool
  | .headBucket _ => false
  | _ => true

/-- Claim C4: for every (truthy) bucket identifier whose head-bucket probe
fails, `s3_empty_bucket` returns after the missing-bucket warning having
issued only the probe itself: no `s3 rm`, no `list-object-versions`, no
`delete-objects`. -/
theorem c4_drain_nonexistent_bucket (env : S3Env) (fuel : Nat) (bucket : Str)
    (hb : bucket.isEmpty = false) (hex : env.bucketOk = false) :
    (s3_empty_bucket env fuel bucket).calls
      = [AwsCall.headBucket (parse_bucket_name bucket)] ∧
    (s3_empty_bucket env fuel bucket).warnedMissing = true ∧
    (s3_empty_bucket env fuel bucket).finished = true ∧
    (s3_empty_bucket env fuel bucket).calls.countP (fun c => isMutatingCall c)
      = 0 := by
  have hrec : s3_empty_bucket env fuel bucket
      = ⟨[AwsCall.headBucket (parse_bucket_name bucket)], true, false, false, true⟩ := by
    simp [s3_empty_bucket, hb, hex]
  rw [hrec]
  refine ⟨rfl, rfl, rfl, ?_⟩
  rw [List.countP_cons_of_neg _ _ (by simp [isMutatingCall])]
  rfl

/-- Environment for the C4 witness: the head-bucket probe fails. -/
def exEnvC4 : S3Env where
  bucketOk := false
  rmOk := true
  pages := fun _ => exPageBad

theorem c4_drain_nonexistent_bucket_witness :
    ("gone".toList : Str).isEmpty = false ∧ exEnvC4.bucketOk = false ∧
    ((s3_empty_bucket exEnvC4 5 "gone".toList).calls
        = [AwsCall.headBucket (parse_bucket_name "gone".toList)] ∧
      (s3_empty_bucket exEnvC4 5 "gone".toList).warnedMissing = true ∧
      (s3_empty_bucket exEnvC4 5 "gone".toList).finished = true ∧
      (s3_empty_bucket exEnvC4 5 "gone".toList).calls.countP
        (fun c => isMutatingCall c) = 0) :=
  ⟨by decide, rfl,
    c4_drain_nonexistent_bucket exEnvC4 5 "gone".toList (by decide) rfl⟩

/-!
## Claim C5: migrate-then-reconfigure init

first_configuration.py lines 160-169 and first_configuration_win.py lines
247-263: attempt `terraform init -migrate-state`; on non-zero exit attempt
`terraform init -reconfigure` once; a failure of that second attempt is fatal
(uncaught `CalledProcessError` on macOS/Linux, `die` → exit 1 on Windows).
The tool's exit statuses are the two booleans; the result records the init
attempts made and whether the workflow continues past this step.
-/

/-- One root-stack init attempt. -/
inductive InitAttempt where
  | migrate
  | reconfigure
deriving DecidableEq, Repr

/-- The migrate-else-reconfigure init flow: attempts made, and whether the
workflow continues (`false` = fatal termination surfacing the last failure). -/
def root_init (migrateOk reconfigOk : Bool) : List InitAttempt × Bool :=
  if migrateOk then ([InitAttempt.migrate], true)
  else if reconfigOk then ([InitAttempt.migrate, InitAttempt.reconfigure], true)
  else ([InitAttempt.migrate, InitAttempt.reconfigure], false)

/-- Claim C5: after a failed migrate exactly one reconfigure follows (none
when migrate succeeds), at most two init attempts ever happen, and the
workflow continues iff migrate or the single reconfigure retry succeeded —
a failing reconfigure terminates the workflow with no third attempt. -/
theorem c5_migrate_reconfigure_once (migrateOk reconfigOk : Bool) :
    (root_init migrateOk reconfigOk).1.count InitAttempt.reconfigure
      = (if migrateOk then 0 else 1) ∧
    (root_init migrateOk reconfigOk).1.count InitAttempt.migrate = 1 ∧
    (root_init migrateOk reconfigOk).1.length ≤ 2 ∧
    (root_init migrateOk reconfigOk).2 = (migrateOk || reconfigOk) := by
  cases migrateOk <;> cases reconfigOk <;> decide

/-!
## Claim C6: backend bucket output fallback

first_configuration.py lines 139-157 and first_configuration_win.py lines
228-244: read `backend_s3_bucket_name`; if falsy read
`backend_s3_bucket_arn`; if still falsy, die (exit 1) before the descriptor
is written; otherwise pass the obtained value directly to
`write_backend_hcl_with_meta`.  Note: neither provisioning script calls
`parse_bucket_name`; the ARN value is written to the descriptor verbatim.
-/

/-- The bucket-output resolution of the bootstrap workflow (`none` = both
outputs absent, fatal). -/
def bootstrap_bucket (primary secondary : Option Str) : Option Str :=
  if optTruthy primary then primary
  else if optTruthy secondary then secondary
  else none

/-- The provisioning workflow's descriptor step: `none` means the workflow
died before writing `backend.hcl`; otherwise the lines written. -/
def first_configuration_descriptor (primary secondary : Option Str)
    (key region : Str) (ui : Bool) : Option (List Str) :=
  match bootstrap_bucket primary secondary with
  | none => none
  | some bucket => some (write_backend_hcl_with_meta bucket key region ui)

/-- An ARN-style secondary output value. -/
def exArn : Str := "arn:aws:s3:::my-bucket".toList

/-- Counterexample to claim C6: with the primary output absent and the
secondary output the ARN `arn:aws:s3:::my-bucket`, the descriptor is written
with the raw ARN as its bucket — not with the normalized bare name
`my-bucket`, which `parse_bucket_name` (used only by the destroy scripts)
would produce and which yields a different descriptor. -/
theorem c6_counterexample_no_normalization :
    first_configuration_descriptor none (some exArn)
        "terraform.tfstate".toList "eu-central-1".toList false
      = some (write_backend_hcl_with_meta exArn
          "terraform.tfstate".toList "eu-central-1".toList false) ∧
    parse_bucket_name exArn = "my-bucket".toList ∧
    write_backend_hcl_with_meta exArn
        "terraform.tfstate".toList "eu-central-1".toList false
      ≠ write_backend_hcl_with_meta (parse_bucket_name exArn)
          "terraform.tfstate".toList "eu-central-1".toList false := by
  decide

/-- Claim C6 as amended: when the primary output is falsy the workflow falls
back to the secondary output and writes its value into the descriptor
verbatim (no ARN normalization); when both are falsy it dies before writing
the descriptor; a truthy primary is used directly. -/
theorem c6_amended_fallback_verbatim (primary secondary : Option Str)
    (key region : Str) (ui : Bool) :
    (optTruthy primary = false → optTruthy secondary = true →
      first_configuration_descriptor primary secondary key region ui
        = some (write_backend_hcl_with_meta (secondary.getD []) key region ui)) ∧
    (optTruthy primary = false → optTruthy secondary = false →
      first_configuration_descriptor primary secondary key region ui = none) ∧
    (optTruthy primary = true →
      first_configuration_descriptor primary secondary key region ui
        = some (write_backend_hcl_with_meta (primary.getD []) key region ui)) := by
  refine ⟨?_, ?_, ?_⟩
  · intro hp hs
    cases secondary with
    | none => simp [optTruthy] at hs
    | some s => simp [first_configuration_descriptor, bootstrap_bucket, hp, hs]
  · intro hp hs
    simp [first_configuration_descriptor, bootstrap_bucket, hp, hs]
  · intro hp
    cases primary with
    | none => simp [optTruthy] at hp
    | some s => simp [first_configuration_descriptor, bootstrap_bucket, hp]

theorem c6_amended_fallback_verbatim_witness :
    optTruthy (none : Option Str) = false ∧ optTruthy (some exArn) = true ∧
    first_configuration_descriptor none (some exArn)
        "k".toList "r".toList true
      = some (write_backend_hcl_with_meta ((some exArn).getD [])
          "k".toList "r".toList true) :=
  ⟨rfl, by decide,
    (c6_amended_fallback_verbatim none (some exArn)
      "k".toList "r".toList true).1 rfl (by decide)⟩

/-!
## Claim C7: the website-bucket phase of teardown

destroy_infrastructure.py lines 261-297 and destroy_infrastructure_win.py
lines 350-388: resolve the metadata flag (`None` → warn and assume `False`);
only with a true flag softly query `website_bucket_name` (a falsy result
warns and leaves the bucket empty); with a truthy bucket run
`s3_empty_bucket`; then the root destroy step.

The drain itself is not failure-free: inside `s3_empty_bucket` a
`list-object-versions` call that exits non-zero raises through `capture`
(macOS/Linux: uncaught `CalledProcessError`; Windows: `die`), a non-empty
non-JSON listing output hits `die` in `capture_json` (lines 64-71, win
154-161), and each `delete-objects` is issued through the unwrapped `run`
(lines 182-189, win 273) whose failure is likewise fatal.  Only the
head-probe failure (warn and return) and the `aws s3 rm` failure (warn and
continue) are tolerated.  The run model below captures the drain's control
flow including these fatal exits; the trace model `s3_empty_bucket` above
covers the per-call payloads on the non-fatal paths.
-/

/-- Outcome of one `capture_json(list-object-versions)` call:
valid JSON, empty stdout (`capture_json` returns `None`, the loop substitutes
`{}` and stops), non-JSON output (`die` in `capture_json`, fatal), or a
non-zero exit (uncaught `CalledProcessError` / `die` in `capture`, fatal). -/
inductive ListCallOutcome where
  | json (r : ListResponse)
  | emptyOut
  | badJson
  | exitFail
deriving Repr

/-- The cloud environment of one drain run: head-probe result, `s3 rm`
result (it only controls a warning — both scripts catch its failure), the
outcome of the `k`-th `list-object-versions` call, and whether the `d`-th
`delete-objects` call (counted across the whole run) succeeds. -/
structure DrainEnv where
  bucketOk : Bool
  rmOk : Bool
  lists : Nat → ListCallOutcome
  deletes : Nat → Bool

/-- How a drain run ends: the function returns (with or without the
pagination warning), the process dies inside the drain, or the fuel bound was
hit (modelling a diverging run). -/
inductive DrainStatus where
  | completed (warnedPagination : Bool)
  | fatal
  | outOfFuel
deriving DecidableEq, Repr

/-- All of the `n` delete-objects calls starting at index `d` succeed
(the first failing one kills the process, so for run status only the
conjunction matters). -/
def deletesUpTo (del : Nat → Bool) (d n : Nat) : Bool :=
  (List.range n).all (fun i => del (d + i))

/-- The versioned pass with its fatal exits: list a page (fatal on a failed
or non-JSON listing), issue its `(chunks1000 …).length` delete calls (fatal
if any fails), then stop / warn-and-stop / continue exactly as `drainLoop`
does.  `k` counts listing calls, `d` delete calls. -/
def drainLoopRun (env : DrainEnv) : Nat → Nat → Nat → DrainStatus
  | 0, _, _ => DrainStatus.outOfFuel
  | fuel + 1, k, d =>
    match env.lists k with
    | ListCallOutcome.exitFail => DrainStatus.fatal
    | ListCallOutcome.badJson => DrainStatus.fatal
    | ListCallOutcome.emptyOut => DrainStatus.completed false
    | ListCallOutcome.json r =>
      let nChunks := (chunks1000 (collectToDelete r)).length
      if deletesUpTo env.deletes d nChunks then
        if !r.IsTruncated then DrainStatus.completed false
        else if !optTruthy r.NextKeyMarker && !optTruthy r.NextVersionIdMarker then
          DrainStatus.completed true
        else drainLoopRun env fuel (k + 1) (d + nChunks)
      else DrainStatus.fatal

/-- Control flow of one `s3_empty_bucket` run: falsy bucket → immediate
return; failed head probe (on the `parse_bucket_name`-normalized name) →
warn and return; otherwise the best-effort `s3 rm` (never fatal) and the
versioned pass. -/
def s3_empty_bucket_run (env : DrainEnv) (fuel : Nat) (bucket : Str) : DrainStatus :=
  if bucket.isEmpty then DrainStatus.completed false
  else if !env.bucketOk then DrainStatus.completed false
  else drainLoopRun env fuel 0 0

/-- How the website-bucket phase ends: control reaches the root destroy step
(recording whether a drain ran), the process died inside the drain, or the
drain ran out of fuel. -/
inductive PhaseResult where
  | reachedDestroyRoot (drained : Bool)
  | fatalInDrain
  | outOfFuel
deriving DecidableEq, Repr

/-- The website-bucket phase: metadata resolution (`None` → false), soft
output query (`or ""`), drain only when the bucket is truthy, then the root
destroy step — unless the drain killed the process first. -/
def website_phase_run (env : DrainEnv) (fuel : Nat) (meta : Option Bool)
    (websiteOut : Option Str) : PhaseResult :=
  let flag := meta.getD false
  let wb : Str := if flag then websiteOut.getD [] else []
  if wb.isEmpty then PhaseResult.reachedDestroyRoot false
  else
    match s3_empty_bucket_run env fuel wb with
    | DrainStatus.completed _ => PhaseResult.reachedDestroyRoot true
    | DrainStatus.fatal => PhaseResult.fatalInDrain
    | DrainStatus.outOfFuel => PhaseResult.outOfFuel

/-- A non-truncated listing page with one deletable version entry. -/
def exPageOneC7 : ListResponse where
  Versions := [⟨some "a.txt".toList, some "v1".toList⟩]
  DeleteMarkers := []
  IsTruncated := false
  NextKeyMarker := none
  NextVersionIdMarker := none

/-- Environment refuting claim C7: the bucket exists and lists one deletable
entry, but the single `delete-objects` call fails. -/
def exEnvC7fail : DrainEnv where
  bucketOk := true
  rmOk := true
  lists := fun _ => ListCallOutcome.json exPageOneC7
  deletes := fun _ => false

/-- Counterexample to claim C7: with the metadata flag true and the
website-bucket output present, a failing `delete-objects` call inside the
drain (issued through the unwrapped `run`) terminates the process before the
root destroy step — so the website-bucket phase does not reach the root-stack
destroy for every flag/output combination. -/
theorem c7_counterexample_fatal_drain :
    website_phase_run exEnvC7fail 5 (some true) (some "web-bucket".toList)
      = PhaseResult.fatalInDrain ∧
    PhaseResult.fatalInDrain ≠ PhaseResult.reachedDestroyRoot true ∧
    PhaseResult.fatalInDrain ≠ PhaseResult.reachedDestroyRoot false := by
  decide

/-- A listing-call outcome on which the loop exits normally. -/
def outcomeStops : ListCallOutcome → Bool
  | ListCallOutcome.json r => pageStops r
  | ListCallOutcome.emptyOut => true
  | _ => false

/-- A listing-call outcome on which the loop continues to the next page. -/
def outcomeContinues : ListCallOutcome → Bool
  | ListCallOutcome.json r => !pageStops r
  | _ => false

theorem deletesUpTo_all (del : Nat → Bool) (h : ∀ x, del x = true) (d n : Nat) :
    deletesUpTo del d n = true := by
  simp only [deletesUpTo, List.all_eq_true]
  intro i _
  exact h (d + i)

theorem drainLoopRun_completes (env : DrainEnv)
    (hdel : ∀ x, env.deletes x = true) :
    ∀ i fuel k d,
      (∀ j, j < i → outcomeContinues (env.lists (k + j)) = true) →
      outcomeStops (env.lists (k + i)) = true → i < fuel →
      ∃ w, drainLoopRun env fuel k d = DrainStatus.completed w := by
  intro i
  induction i with
  | zero =>
    intro fuel k d _ hstop hfuel
    cases fuel with
    | zero => omega
    | succ f =>
      simp only [Nat.add_zero] at hstop
      cases hl : env.lists k with
      | json r =>
        rw [hl] at hstop
        simp only [outcomeStops] at hstop
        have hdu : deletesUpTo env.deletes d (chunks1000 (collectToDelete r)).length
            = true := deletesUpTo_all env.deletes hdel _ _
        cases ht : r.IsTruncated with
        | false =>
          refine ⟨false, ?_⟩
          simp [drainLoopRun, hl, hdu, ht]
        | true =>
          have hmk : (!optTruthy r.NextKeyMarker
              && !optTruthy r.NextVersionIdMarker) = true := by
            simp only [pageStops, ht, Bool.not_true, Bool.false_or] at hstop
            exact hstop
          refine ⟨true, ?_⟩
          simp [drainLoopRun, hl, hdu, ht, hmk]
      | emptyOut =>
        refine ⟨false, ?_⟩
        simp [drainLoopRun, hl]
      | badJson =>
        rw [hl] at hstop
        simp [outcomeStops] at hstop
      | exitFail =>
        rw [hl] at hstop
        simp [outcomeStops] at hstop
  | succ i ih =>
    intro fuel k d hmin hstop hfuel
    cases fuel with
    | zero => omega
    | succ f =>
      have h0 : outcomeContinues (env.lists k) = true := by
        have := hmin 0 (Nat.succ_pos i)
        simpa using this
      cases hl : env.lists k with
      | json r =>
        rw [hl] at h0
        simp only [outcomeContinues, Bool.not_eq_eq_eq_not, Bool.not_true] at h0
        have ht : r.IsTruncated = true := by
          cases hx : r.IsTruncated
          · simp [pageStops, hx] at h0
          · rfl
        have hmk : (!optTruthy r.NextKeyMarker
            && !optTruthy r.NextVersionIdMarker) = false := by
          simp only [pageStops, ht, Bool.not_true, Bool.false_or] at h0
          exact h0
        have hdu : deletesUpTo env.deletes d (chunks1000 (collectToDelete r)).length
            = true := deletesUpTo_all env.deletes hdel _ _
        have hmin2 : ∀ j, j < i → outcomeContinues (env.lists (k + 1 + j)) = true := by
          intro j hj
          have := hmin (j + 1) (by omega)
          rwa [show k + (j + 1) = k + 1 + j by omega] at this
        have hstop2 : outcomeStops (env.lists (k + 1 + i)) = true := by
          rwa [show k + (i + 1) = k + 1 + i by omega] at hstop
        obtain ⟨w, hw⟩ :=
          ih f (k + 1) (d + (chunks1000 (collectToDelete r)).length)
            hmin2 hstop2 (by omega)
        refine ⟨w, ?_⟩
        simp [drainLoopRun, hl, hdu, ht, hmk, hw]
      | emptyOut =>
        rw [hl] at h0
        simp [outcomeContinues] at h0
      | badJson =>
        rw [hl] at h0
        simp [outcomeContinues] at h0
      | exitFail =>
        rw [hl] at h0
        simp [outcomeContinues] at h0

/-- Claim C7 as amended: the flag and the output themselves never terminate
the teardown — an unknown flag resolves to false and skips the drain, a false
flag skips the drain, and a true flag with an absent or empty output only
warns; in all those cases, and also when the drain's head probe fails
(nonexistent bucket) or the drain returns at all, the root destroy step is
reached; in particular it is reached whenever every `delete-objects` call
succeeds and the scripted listing outcomes reach a stopping page within the
fuel bound.  (What can prevent it — per the counterexample — is a fatal CLI
failure inside the drain itself: a failed or non-JSON `list-object-versions`,
or a failed `delete-objects`.) -/
theorem c7_amended_website_phase (env : DrainEnv) (fuel : Nat)
    (meta : Option Bool) (websiteOut : Option Str) :
    (meta.getD false = false →
      website_phase_run env fuel meta websiteOut
        = PhaseResult.reachedDestroyRoot false) ∧
    (meta = some true → optTruthy websiteOut = false →
      website_phase_run env fuel meta websiteOut
        = PhaseResult.reachedDestroyRoot false) ∧
    (meta = some true → optTruthy websiteOut = true → env.bucketOk = false →
      website_phase_run env fuel meta websiteOut
        = PhaseResult.reachedDestroyRoot true) ∧
    (∀ w, meta = some true → optTruthy websiteOut = true →
      s3_empty_bucket_run env fuel (websiteOut.getD []) = DrainStatus.completed w →
      website_phase_run env fuel meta websiteOut
        = PhaseResult.reachedDestroyRoot true) ∧
    (meta = some true → optTruthy websiteOut = true → env.bucketOk = true →
      (∀ x, env.deletes x = true) →
      ∀ i, (∀ j, j < i → outcomeContinues (env.lists j) = true) →
        outcomeStops (env.lists i) = true → i < fuel →
        website_phase_run env fuel meta websiteOut
          = PhaseResult.reachedDestroyRoot true) := by
  refine ⟨?_, ?_, ?_, ?_, ?_⟩
  · intro hf
    simp [website_phase_run, hf]
  · intro hm ho
    subst hm
    cases websiteOut with
    | none => simp [website_phase_run]
    | some s =>
      simp only [optTruthy, strTruthy, Bool.not_eq_eq_eq_not, Bool.not_false] at ho
      simp [website_phase_run, ho]
  · intro hm ho hex
    subst hm
    cases websiteOut with
    | none => simp [optTruthy] at ho
    | some s =>
      simp only [optTruthy, strTruthy, Bool.not_eq_eq_eq_not, Bool.not_true] at ho
      simp [website_phase_run, s3_empty_bucket_run, ho, hex]
  · intro w hm ho hco
    subst hm
    cases websiteOut with
    | none => simp [optTruthy] at ho
    | some s =>
      simp only [optTruthy, strTruthy, Bool.not_eq_eq_eq_not, Bool.not_true] at ho
      simp only [Option.getD_some] at hco
      simp [website_phase_run, ho, hco]
  · intro hm ho hex hdel i hmin hstop hfuel
    subst hm
    cases websiteOut with
    | none => simp [optTruthy] at ho
    | some s =>
      simp only [optTruthy, strTruthy, Bool.not_eq_eq_eq_not, Bool.not_true] at ho
      obtain ⟨w, hw⟩ := drainLoopRun_completes env hdel i fuel 0 0
        (by simpa using hmin) (by simpa using hstop) hfuel
      have hco : s3_empty_bucket_run env fuel s = DrainStatus.completed w := by
        simp [s3_empty_bucket_run, ho, hex, hw]
      simp [website_phase_run, ho, hco]

/-- Environment for the C7 amended-claim witness: the bucket exists, the one
listing page stops the loop, and its single delete call succeeds. -/
def exEnvC7ok : DrainEnv where
  bucketOk := true
  rmOk := true
  lists := fun _ => ListCallOutcome.json exPageOneC7
  deletes := fun _ => true

theorem c7_amended_website_phase_witness :
    (some true : Option Bool) = some true ∧
    optTruthy (some "web-bucket".toList) = true ∧
    exEnvC7ok.bucketOk = true ∧
    (∀ x, exEnvC7ok.deletes x = true) ∧
    outcomeStops (exEnvC7ok.lists 0) = true ∧ 0 < 3 ∧
    website_phase_run exEnvC7ok 3 (some true) (some "web-bucket".toList)
      = PhaseResult.reachedDestroyRoot true :=
  ⟨rfl, by decide, rfl, fun _ => rfl, by decide, by decide,
    (c7_amended_website_phase exEnvC7ok 3 (some true)
        (some "web-bucket".toList)).2.2.2.2 rfl (by decide) rfl (fun _ => rfl)
      0 (fun j hj => absurd hj (Nat.not_lt_zero j)) (by decide) (by decide)⟩

/-!
## Claim C8: prompt cancellation exit codes

destroy_infrastructure.py lines 230-254 (and destroy_infrastructure_win.py
lines 316-343): a cancelled (or falsy) profile selection calls
`die("AWS profile selection cancelled.")` with the default exit code 1; a
cancelled region prompt calls `die("Region required.")` with code 1; only a
declined/cancelled destroy confirmation calls `die("Cancelled by user.",
code=0)`.  `questionary`'s `.ask()` yields `None` on cancellation.
-/

/-- The three interactive prompts of the destroy orchestrator in order:
result is `Except.error code` for a `die(…, code)` exit, `Except.ok` with the
accepted answers otherwise. -/
def destroy_prompt_flow (profile region : Option Str) (confirm : Option Bool) :
    Except Nat (Str × Str) :=
  if !optTruthy profile then Except.error 1
  else if !optTruthy region then Except.error 1
  else if !(confirm.getD false) then Except.error 0
  else Except.ok (profile.getD [], region.getD [])

/-- Counterexample to claim C8: cancelling the profile-selection prompt
(`ask()` returns `None`) terminates the process with exit code 1, not the
claimed clean exit code 0. -/
theorem c8_counterexample_profile_cancel_exits_1 :
    destroy_prompt_flow none (some "eu-central-1".toList) (some true)
      = Except.error 1 ∧ (1 : Nat) ≠ 0 :=
  ⟨rfl, by decide⟩

/-- Claim C8 as amended: only cancelling (or declining) the destroy
confirmation exits with code 0; cancelling the profile selection or the
region prompt is treated as fatal and exits with code 1; with all prompts
answered affirmatively the flow proceeds. -/
theorem c8_amended_exit_codes (profile region : Option Str) (confirm : Option Bool) :
    (optTruthy profile = false →
      destroy_prompt_flow profile region confirm = Except.error 1) ∧
    (optTruthy profile = true → optTruthy region = false →
      destroy_prompt_flow profile region confirm = Except.error 1) ∧
    (optTruthy profile = true → optTruthy region = true →
      confirm.getD false = false →
      destroy_prompt_flow profile region confirm = Except.error 0) ∧
    (optTruthy profile = true → optTruthy region = true → confirm = some true →
      destroy_prompt_flow profile region confirm
        = Except.ok (profile.getD [], region.getD [])) := by
  refine ⟨?_, ?_, ?_, ?_⟩
  · intro hp
    simp [destroy_prompt_flow, hp]
  · intro hp hr
    simp [destroy_prompt_flow, hp, hr]
  · intro hp hr hc
    simp [destroy_prompt_flow, hp, hr, hc]
  · intro hp hr hc
    subst hc
    simp [destroy_prompt_flow, hp, hr]

theorem c8_amended_exit_codes_witness :
    optTruthy (some "dev".toList) = true ∧
    optTruthy (some "eu-central-1".toList) = true ∧
    (none : Option Bool).getD false = false ∧
    destroy_prompt_flow (some "dev".toList) (some "eu-central-1".toList) none
      = Except.error 0 :=
  ⟨by decide, by decide, rfl,
    (c8_amended_exit_codes (some "dev".toList) (some "eu-central-1".toList)
      none).2.2.1 (by decide) (by decide) rfl⟩

/-!
## Claim C9: writer lambda validation

lambda_codes/writer/lambda_function.py lines 42-134.  The runtime pieces the
handler consults — the table-name environment variables, `json.loads`,
`base64.b64decode`, `uuid4`, the clock and the DynamoDB put outcome — are
environment parameters.  The JSON values the handler inspects are modelled as
scalars and one level of string-keyed dictionaries of scalars, which covers
every branch the handler distinguishes (string / non-string / absent).
The observable result is the HTTP status code plus the list of `put_item`
calls issued.
-/

/-- A scalar JSON value as seen by the handler's `isinstance` checks. -/
inductive PyScalar where
  | pstr (s : Str)
  | pint (n : Int)
  | pbool (b : Bool)
  | pnone
deriving DecidableEq, Repr

/-- A parsed JSON body: a scalar, or a dictionary of scalars. -/
inductive PyVal where
  | scalar (v : PyScalar)
  | pdict (kvs : List (Str × PyScalar))
deriving DecidableEq, Repr

/-- Python `payload.get(k)`: `None` when the key is absent. -/
def dictGet (kvs : List (Str × PyScalar)) (k : Str) : PyScalar :=
  match kvs.lookup k with
  | some v => v
  | none => PyScalar.pnone

/-- Outcome of the DynamoDB `put_item` call. -/
inductive DdbOutcome where
  | ok
  | conditionalCheckFailed
  | otherError
deriving DecidableEq, Repr

/-- One issued `put_item` call (the item written). -/
structure PutItemCall where
  message_id : Str
  text : Str
  created_at : Str
  author : Option Str
deriving DecidableEq, Repr

/-- The writer handler's runtime environment. -/
structure WriterEnv where
  tableName : Option Str
  parse : Str → Option PyVal
  b64decode : Str → Option Str
  newUuid : Str
  nowIso : Str
  put_result : DdbOutcome

/-- Observable result of a handler invocation: status code and issued
`put_item` calls. -/
structure HandlerResult where
  statusCode : Nat
  putCalls : List PutItemCall
deriving DecidableEq, Repr

/-- The `text` field key. -/
def textKey : Str := "text".toList

/-- The `author` field key. -/
def authorKey : Str := "author".toList

/-- The put path of the writer: build the item (author only when truthy,
a string, and truthy after strip) and issue the call; the status code follows
the put outcome (201 / 409 on the conditional-check conflict / 500). -/
def writer_put (env : WriterEnv) (t : Str) (author : Option Str) : HandlerResult :=
  let item : PutItemCall :=
    { message_id := env.newUuid
      text := pyStrip t
      created_at := env.nowIso
      author :=
        match author with
        | some a =>
          if strTruthy a && strTruthy (pyStrip a) then some (pyStrip a) else none
        | none => none }
  match env.put_result with
  | DdbOutcome.ok => ⟨201, [item]⟩
  | DdbOutcome.conditionalCheckFailed => ⟨409, [item]⟩
  | DdbOutcome.otherError => ⟨500, [item]⟩

/-- `lambda_handler` of the writer: missing table env var → 500 (RuntimeError
caught by the outer handler); absent body → 400; undecodable base64 → 500;
unparseable JSON → 400; non-dict payload → 500 (`payload.get` raises);
missing / non-string / whitespace-only `text` → 400; non-string, non-None
`author` → 400; otherwise put the item. -/
def writer_lambda_handler (env : WriterEnv) (body : Option Str) (isB64 : Bool) :
    HandlerResult :=
  match env.tableName with
  | none => ⟨500, []⟩
  | some _ =>
    match body with
    | none => ⟨400, []⟩
    | some raw0 =>
      match (if isB64 then env.b64decode raw0 else some raw0) with
      | none => ⟨500, []⟩
      | some raw =>
        match env.parse raw with
        | none => ⟨400, []⟩
        | some (PyVal.scalar _) => ⟨500, []⟩
        | some (PyVal.pdict kvs) =>
          match dictGet kvs textKey with
          | PyScalar.pstr t =>
            if (pyStrip t).isEmpty then ⟨400, []⟩
            else
              match dictGet kvs authorKey with
              | PyScalar.pnone => writer_put env t none
              | PyScalar.pstr a => writer_put env t (some a)
              | _ => ⟨400, []⟩
          | _ => ⟨400, []⟩

/-- The `text` validation failure of the claim: missing (`None`), not a
string, or whitespace-only. -/
def textInvalid : PyScalar → Bool
  | PyScalar.pstr s => (pyStrip s).isEmpty
  | _ => true

/-- The `author` validation failure of the claim: present but not a string. -/
def authorInvalid : PyScalar → Bool
  | PyScalar.pstr _ => false
  | PyScalar.pnone => false
  | _ => true

/-- Claim C9: with the table configured, every request failing validation —
absent body, unparseable JSON body, `text` missing / non-string /
whitespace-only, or `author` present but not a string — yields status 400
and issues no `put_item` call. -/
theorem c9_writer_validation_rejects (env : WriterEnv) (body : Option Str)
    (isB64 : Bool) (htable : env.tableName.isSome = true) :
    (body = none → writer_lambda_handler env body isB64 = ⟨400, []⟩) ∧
    (∀ raw0 raw, body = some raw0 →
      (if isB64 then env.b64decode raw0 else some raw0) = some raw →
      env.parse raw = none →
      writer_lambda_handler env body isB64 = ⟨400, []⟩) ∧
    (∀ raw0 raw kvs, body = some raw0 →
      (if isB64 then env.b64decode raw0 else some raw0) = some raw →
      env.parse raw = some (PyVal.pdict kvs) →
      textInvalid (dictGet kvs textKey) = true →
      writer_lambda_handler env body isB64 = ⟨400, []⟩) ∧
    (∀ raw0 raw kvs t, body = some raw0 →
      (if isB64 then env.b64decode raw0 else some raw0) = some raw →
      env.parse raw = some (PyVal.pdict kvs) →
      dictGet kvs textKey = PyScalar.pstr t →
      (pyStrip t).isEmpty = false →
      authorInvalid (dictGet kvs authorKey) = true →
      writer_lambda_handler env body isB64 = ⟨400, []⟩) := by
  obtain ⟨tn, htn⟩ := Option.isSome_iff_exists.mp htable
  refine ⟨?_, ?_, ?_, ?_⟩
  · intro hb
    subst hb
    simp [writer_lambda_handler, htn]
  · intro raw0 raw hb hdec hparse
    subst hb
    simp [writer_lambda_handler, htn, hdec, hparse]
  · intro raw0 raw kvs hb hdec hparse htext
    subst hb
    cases hv : dictGet kvs textKey with
    | pstr s =>
      rw [hv] at htext
      simp only [textInvalid] at htext
      simp [writer_lambda_handler, htn, hdec, hparse, hv, htext]
    | pint n => simp [writer_lambda_handler, htn, hdec, hparse, hv]
    | pbool b2 => simp [writer_lambda_handler, htn, hdec, hparse, hv]
    | pnone => simp [writer_lambda_handler, htn, hdec, hparse, hv]
  · intro raw0 raw kvs t hb hdec hparse htext hne hauthor
    subst hb
    cases ha : dictGet kvs authorKey with
    | pstr a =>
      rw [ha] at hauthor
      simp [authorInvalid] at hauthor
    | pnone =>
      rw [ha] at hauthor
      simp [authorInvalid] at hauthor
    | pint n => simp [writer_lambda_handler, htn, hdec, hparse, htext, hne, ha]
    | pbool b2 => simp [writer_lambda_handler, htn, hdec, hparse, htext, hne, ha]

/-- Environment for the C9 witness. -/
def exEnvW : WriterEnv where
  tableName := some "messages".toList
  parse := fun _ => none
  b64decode := fun s => some s
  newUuid := "uuid-1".toList
  nowIso := "2026-01-01T00:00:00Z".toList
  put_result := DdbOutcome.ok

theorem c9_writer_validation_rejects_witness :
    exEnvW.tableName.isSome = true ∧
    writer_lambda_handler exEnvW none false = ⟨400, []⟩ :=
  ⟨rfl, (c9_writer_validation_rejects exEnvW none false rfl).1 rfl⟩

/-!
## Claim C10: reader lambda scan limit

lambda_codes/reader/lambda_function.py lines 92-133 (the list route, i.e. no
`pathParameters.id`).  `limit = 50`; if `qs.get("limit")` is truthy,
`limit = max(1, min(200, int(qs["limit"])))`, with `ValueError` from `int`
yielding a 400 `InvalidLimit` response before any scan; a truthy
`next_token` must parse as JSON or a 400 `InvalidNextToken` is returned
before any scan; finally `table.scan(Limit=limit, ...)` is issued.
-/

/-- Value of an ASCII digit. -/
def digitVal (c : Char) : Nat := c.toNat - 48

/-- Digits with Python's underscore rule (single underscores strictly between
digits), continuing a number whose leading digit was already consumed. -/
def pyDigitsAux : Nat → Str → Option Nat
  | acc, [] => some acc
  | acc, '_' :: c :: t =>
    if c.isDigit then pyDigitsAux (acc * 10 + digitVal c) t else none
  | _, '_' :: [] => none
  | acc, c :: t =>
    if c.isDigit then pyDigitsAux (acc * 10 + digitVal c) t else none

/-- A nonempty digit string (with legal underscores) to its value. -/
def pyDigits : Str → Option Nat
  | [] => none
  | c :: t => if c.isDigit then pyDigitsAux (digitVal c) t else none

/-- Python `int(s)` on a string: surrounding whitespace allowed, one optional
sign, then digits; anything else raises `ValueError` (`none`). -/
def pyInt (s : Str) : Option Int :=
  match pyStrip s with
  | '+' :: r => (pyDigits r).map (fun n => (n : Int))
  | '-' :: r => (pyDigits r).map (fun n => -(n : Int))
  | r => (pyDigits r).map (fun n => (n : Int))

/-- The `limit` query parameter key. -/
def limitParam : Str := "limit".toList

/-- The `next_token` query parameter key. -/
def nextTokenParam : Str := "next_token".toList

/-- The reader's runtime environment: table-name env var, `json.loads` for
the pagination token, and whether the scan call succeeds. -/
structure ReaderEnv where
  tableName : Option Str
  parseToken : Str → Option PyVal
  scanOk : Bool

/-- Observable result of a list-route invocation: status code and the `Limit`
of each scan call issued. -/
structure ReaderResult where
  statusCode : Nat
  scanLimits : List Int
deriving DecidableEq, Repr

/-- The limit computation of the list route: absent or empty (falsy) `limit`
keeps the default 50; otherwise `int` then clamp into `[1, 200]`, with a
non-integer value yielding `none` (the 400 `InvalidLimit` branch). -/
def computeLimit (qs : List (Str × Str)) : Option Int :=
  match qs.lookup limitParam with
  | none => some 50
  | some v =>
    if v.isEmpty then some 50
    else
      match pyInt v with
      | some n => some (max 1 (min 200 n))
      | none => none

/-- The list route of `lambda_handler` in the reader: missing table env var →
500; invalid limit → 400 with no scan; truthy but unparseable `next_token` →
400 with no scan; otherwise one scan with the computed limit (500 on a scan
`ClientError`, 200 otherwise). -/
def reader_list_route (env : ReaderEnv) (qs0 : Option (List (Str × Str))) :
    ReaderResult :=
  match env.tableName with
  | none => ⟨500, []⟩
  | some _ =>
    match computeLimit (qs0.getD []) with
    | none => ⟨400, []⟩
    | some lim =>
      if optTruthy ((qs0.getD []).lookup nextTokenParam) then
        match env.parseToken (((qs0.getD []).lookup nextTokenParam).getD []) with
        | none => ⟨400, []⟩
        | some _ => if env.scanOk then ⟨200, [lim]⟩ else ⟨500, [lim]⟩
      else
        if env.scanOk then ⟨200, [lim]⟩ else ⟨500, [lim]⟩

/-- Environment for the C10 theorems. -/
def exEnvR : ReaderEnv where
  tableName := some "messages".toList
  parseToken := fun _ => none
  scanOk := true

/-- Counterexample to claim C10: the empty string is a non-integer value of
the `limit` query parameter (Python `int("")` raises), yet because
`qs.get("limit")` is falsy for `""` the route does not return 400 — it
issues a scan with the default limit 50 and answers 200. -/
theorem c10_counterexample_empty_limit :
    pyInt ([] : Str) = none ∧
    reader_list_route exEnvR (some [(limitParam, [])]) = ⟨200, [50]⟩ ∧
    (200 : Nat) ≠ 400 := by
  decide

theorem computeLimit_bounds (qs : List (Str × Str)) (lim : Int)
    (h : computeLimit qs = some lim) : 1 ≤ lim ∧ lim ≤ 200 := by
  unfold computeLimit at h
  cases hq : qs.lookup limitParam with
  | none =>
    simp only [hq, Option.some.injEq] at h
    omega
  | some v =>
    simp only [hq] at h
    cases hv : v.isEmpty with
    | true =>
      simp [hv] at h
      omega
    | false =>
      simp only [hv, Bool.false_eq_true, if_false] at h
      cases hn : pyInt v with
      | none => simp [hn] at h
      | some n =>
        simp only [hn, Option.some.injEq] at h
        subst h
        constructor
        · exact le_max_left 1 (min 200 n)
        · exact max_le (by norm_num) (min_le_left 200 n)

/-- Claim C10 as amended: every scan the list route issues has a `Limit` in
`[1, 200]`; an absent — or empty, hence falsy — `limit` parameter keeps the
default 50; a nonempty integer-valued `limit` is clamped into `[1, 200]`;
a nonempty non-integer `limit` yields status 400 with no scan issued. -/
theorem c10_amended_limit_clamp (env : ReaderEnv) (qs0 : Option (List (Str × Str)))
    (htable : env.tableName.isSome = true) :
    (∀ L ∈ (reader_list_route env qs0).scanLimits, 1 ≤ L ∧ L ≤ 200) ∧
    ((qs0.getD []).lookup limitParam = none →
      computeLimit (qs0.getD []) = some 50) ∧
    (∀ v, (qs0.getD []).lookup limitParam = some v → v.isEmpty = true →
      computeLimit (qs0.getD []) = some 50) ∧
    (∀ v n, (qs0.getD []).lookup limitParam = some v → v.isEmpty = false →
      pyInt v = some n →
      computeLimit (qs0.getD []) = some (max 1 (min 200 n))) ∧
    (∀ v, (qs0.getD []).lookup limitParam = some v → v.isEmpty = false →
      pyInt v = none →
      reader_list_route env qs0 = ⟨400, []⟩) := by
  obtain ⟨tn, htn⟩ := Option.isSome_iff_exists.mp htable
  refine ⟨?_, ?_, ?_, ?_, ?_⟩
  · intro L hL
    simp only [reader_list_route, htn] at hL
    cases hcl : computeLimit (qs0.getD []) with
    | none => rw [hcl] at hL; simp at hL
    | some lim =>
      rw [hcl] at hL
      have hb := computeLimit_bounds _ _ hcl
      cases hnt : optTruthy ((qs0.getD []).lookup nextTokenParam) with
      | false =>
        rw [hnt] at hL
        simp only [Bool.false_eq_true, if_false] at hL
        cases hs : env.scanOk with
        | true =>
          rw [hs] at hL
          simp only [if_true, List.mem_singleton] at hL
          subst hL
          exact hb
        | false =>
          rw [hs] at hL
          simp only [Bool.false_eq_true, if_false, List.mem_singleton] at hL
          subst hL
          exact hb
      | true =>
        rw [hnt] at hL
        simp only [if_true] at hL
        cases hp : env.parseToken (((qs0.getD []).lookup nextTokenParam).getD []) with
        | none => rw [hp] at hL; simp at hL
        | some x =>
          rw [hp] at hL
          cases hs : env.scanOk with
          | true =>
            rw [hs] at hL
            simp only [if_true, List.mem_singleton] at hL
            subst hL
            exact hb
          | false =>
            rw [hs] at hL
            simp only [Bool.false_eq_true, if_false, List.mem_singleton] at hL
            subst hL
            exact hb
  · intro h
    simp [computeLimit, h]
  · intro v hv he
    simp [computeLimit, hv, he]
  · intro v n hv he hn
    simp [computeLimit, hv, he, hn]
  · intro v hv he hn
    have hcl : computeLimit (qs0.getD []) = none := by
      simp [computeLimit, hv, he, hn]
    simp [reader_list_route, htn, hcl]

theorem c10_amended_limit_clamp_witness :
    exEnvR.tableName.isSome = true ∧
    [(limitParam, "500".toList)].lookup limitParam = some "500".toList ∧
    ("500".toList : Str).isEmpty = false ∧
    pyInt "500".toList = some 500 ∧
    computeLimit [(limitParam, "500".toList)] = some (max 1 (min 200 500)) :=
  ⟨rfl, by decide, by decide, by decide,
    (c10_amended_limit_clamp exEnvR (some [(limitParam, "500".toList)])
      rfl).2.2.2.1 "500".toList 500 (by decide) (by decide) (by decide)⟩
